import Mathlib

/-!
Verification of the Import & Re-aggregation Pipeline of a restaurant POS
analytics backend.

The development shallowly embeds the Python sources:
  * `backend/modules/data_processing.py` (row transformer, service-charge
    allocation) — section `DataProcessing`;
  * `backend/modules/anomaly.py` (alert cooldown, revenue-drop check) —
    section `Anomaly`;
  * `backend/services/import_service.py` together with the background task
    `process_import_task` of `backend/routes/data.py` (batched ingestion,
    job status, downstream triggers) — section `Ingest`.

Money values from the CSV are modelled as exact rationals (the Python code
uses floats; all behaviour relevant here is decimal arithmetic, which ℚ
represents exactly).  Python `int(x)` is truncation toward zero, Python
`round(x, 2)` is round-half-to-even at two decimals; both are modelled
explicitly below.
-/

namespace DataProcessing

/-- Python `round(q, 0)` (banker's rounding, half to even) as a map ℚ → ℤ. -/
def roundHalfEven (q : ℚ) : ℤ :=
  let f := ⌊q⌋
  let frac := q - f
  if frac < 1/2 then f
  else if 1/2 < frac then f + 1
  else if Even f then f else f + 1

/-- Python `round(q, 2)`: round to two decimal places, half to even. -/
def round2 (q : ℚ) : ℚ := (roundHalfEven (q * 100) : ℚ) / 100

/-- Python `int(x)`: truncation toward zero. -/
def truncInt (q : ℚ) : ℤ := if q < 0 then -⌊-q⌋ else ⌊q⌋

/-- `safe_int(val)` of `transform_storehub_row` on an already-numeric value:
`int(float(val))`, i.e. truncation toward zero. -/
def safe_int (q : ℚ) : ℤ := truncInt q

/-- `allocate_service_charge(item_subtotal, receipt_subtotal, receipt_service_charge)`
from `data_processing.py`: prorated share of the receipt's service charge,
`round(item_subtotal / receipt_subtotal * receipt_service_charge, 2)` when the
receipt subtotal is positive, `0.0` otherwise. -/
def allocate_service_charge (item_subtotal receipt_subtotal receipt_service_charge : ℚ) : ℚ :=
  if receipt_subtotal ≤ 0 then 0
  else round2 (item_subtotal / receipt_subtotal * receipt_service_charge)

/-- The money-bearing fields of the transaction record built by
`transform_storehub_row`; every money field is stored in integer cents. -/
structure TxnOut where
  quantity : ℤ
  unit_price : ℤ
  subtotal : ℤ
  discount : ℤ
  tax : ℤ
  allocated_service_charge : ℤ
  gross_revenue : ℤ
  deriving DecidableEq, Repr

/-- `transform_storehub_row` from `data_processing.py`, restricted to its
numeric core.  Parameters are the values the Python code reads from the row
(`item_subtotal`, `discount`, `tax`, `quantity`, `price`) together with the
two lookup results `receipt_subtotal = receipt_subtotals.get(receipt, item_subtotal)`
and `receipt_sc = service_charges.get(receipt, 0)`.

The Python code computes
  `gross_revenue = item_subtotal + tax + allocated_sc + discount`
on the raw (float) values — the discount is expected to be negative in the
source format, so adding it subtracts — and only then converts each field to
integer cents with `safe_int(x * 100)`; the discount itself is stored as
`safe_int(abs(discount) * 100)`. -/
def transform_storehub_row (item_subtotal receipt_subtotal receipt_sc discount tax : ℚ)
    (quantity_raw : ℤ) (price_raw : ℚ) : TxnOut :=
  let quantity := if quantity_raw < 1 then 1 else quantity_raw
  let allocated_sc := allocate_service_charge item_subtotal receipt_subtotal receipt_sc
  let unit_price := if price_raw = 0 ∧ 0 < quantity then item_subtotal / (quantity : ℚ) else price_raw
  let gross_revenue := item_subtotal + tax + allocated_sc + discount
  { quantity := quantity
    unit_price := safe_int (unit_price * 100)
    subtotal := safe_int (item_subtotal * 100)
    discount := safe_int (|discount| * 100)
    tax := safe_int (tax * 100)
    allocated_service_charge := safe_int (allocated_sc * 100)
    gross_revenue := safe_int (gross_revenue * 100) }

/-- A rational is a whole number of cents. -/
def IsCents (q : ℚ) : Prop := ∃ n : ℤ, q * 100 = (n : ℚ)

theorem truncInt_intCast (n : ℤ) : truncInt (n : ℚ) = n := by
  unfold truncInt
  rcases lt_or_le (n : ℚ) 0 with h | h
  · rw [if_pos h]
    rw [show -(n : ℚ) = ((-n : ℤ) : ℚ) by push_cast; ring, Int.floor_intCast]
    omega
  · rw [if_neg (not_lt.mpr h), Int.floor_intCast]

theorem safe_int_of_isCents {q : ℚ} {n : ℤ} (h : q * 100 = (n : ℚ)) :
    safe_int (q * 100) = n := by
  rw [h]; exact truncInt_intCast n

theorem round2_isCents (q : ℚ) : IsCents (round2 q) := by
  refine ⟨roundHalfEven (q * 100), ?_⟩
  unfold round2
  field_simp

theorem allocate_isCents (i r s : ℚ) : IsCents (allocate_service_charge i r s) := by
  unfold allocate_service_charge
  split
  · exact ⟨0, by norm_num⟩
  · exact round2_isCents _

/-- **C7.** The allocated service charge of an item line equals
`round(item_subtotal / receipt_subtotal * receipt_service_charge, 2)` when the
receipt subtotal is positive and `0` otherwise; in particular, for a receipt
with item subtotals 100 and 300 and a service charge of 40, the allocations
are 10 and 30, summing exactly to 40. -/
theorem allocate_service_charge_spec :
    (∀ i r s : ℚ, allocate_service_charge i r s =
      if 0 < r then round2 (i / r * s) else 0) ∧
    allocate_service_charge 100 400 40 = 10 ∧
    allocate_service_charge 300 400 40 = 30 ∧
    allocate_service_charge 100 400 40 + allocate_service_charge 300 400 40 = 40 := by
  refine ⟨fun i r s => ?_, ?_, ?_, ?_⟩
  · unfold allocate_service_charge
    rcases le_or_lt r 0 with h | h
    · rw [if_pos h, if_neg (not_lt.mpr h)]
    · rw [if_neg (not_le.mpr h), if_pos h]
  · norm_num [allocate_service_charge, round2, roundHalfEven]
  · norm_num [allocate_service_charge, round2, roundHalfEven]
  · norm_num [allocate_service_charge, round2, roundHalfEven]

/-- **C8 counterexample.** For the transformed row the claimed identity
`gross_revenue = subtotal + tax + allocated_service_charge - discount` over
the stored integer-cent fields fails: (1) when the source discount is a
positive number (the code *adds* the raw discount to gross revenue but stores
its absolute value), and (2) when a money input is not a whole number of
cents (gross revenue is truncated after summing rationals, the stored fields
are truncated individually). -/
theorem transform_gross_revenue_cex :
    (let o := transform_storehub_row 10 10 0 1 0 1 0
     o.gross_revenue ≠ o.subtotal + o.tax + o.allocated_service_charge - o.discount) ∧
    (let o := transform_storehub_row (29/200) (29/200) 0 0 (29/200) 1 0
     o.gross_revenue ≠ o.subtotal + o.tax + o.allocated_service_charge - o.discount) := by
  constructor
  · show truncInt _ ≠ _
    norm_num [transform_storehub_row, allocate_service_charge, round2, roundHalfEven,
      safe_int, truncInt]
  · show truncInt _ ≠ _
    norm_num [transform_storehub_row, allocate_service_charge, round2, roundHalfEven,
      safe_int, truncInt]

/-- **C8 (amended).** For every raw row whose source discount is non-positive
(the StoreHub convention the code is written for) and whose subtotal, tax and
discount are whole-cent amounts, the transformed transaction stores all money
fields as integer cents and its `gross_revenue` field equals
`subtotal + tax + allocated_service_charge - discount` computed over the
stored fields, the stored discount being the non-negative magnitude. -/
theorem transform_gross_revenue_eq (item rs sc d t : ℚ) (q : ℤ) (p : ℚ)
    (hd : d ≤ 0) (hi : IsCents item) (hdc : IsCents d) (ht : IsCents t) :
    (transform_storehub_row item rs sc d t q p).gross_revenue =
      (transform_storehub_row item rs sc d t q p).subtotal +
      (transform_storehub_row item rs sc d t q p).tax +
      (transform_storehub_row item rs sc d t q p).allocated_service_charge -
      (transform_storehub_row item rs sc d t q p).discount := by
  obtain ⟨ni, hni⟩ := hi
  obtain ⟨nd, hnd⟩ := hdc
  obtain ⟨nt, hnt⟩ := ht
  obtain ⟨ns, hns⟩ := allocate_isCents item rs sc
  unfold transform_storehub_row
  simp only
  have habs : |d| * 100 = ((-nd : ℤ) : ℚ) := by
    rw [abs_of_nonpos hd]; push_cast
    rw [neg_mul, hnd]
  have hgross : (item + t + allocate_service_charge item rs sc + d) * 100
      = ((ni + nt + ns + nd : ℤ) : ℚ) := by
    push_cast
    rw [add_mul, add_mul, add_mul, hni, hnt, hns, hnd]
  rw [safe_int_of_isCents hgross, safe_int_of_isCents hni, safe_int_of_isCents hnt,
    safe_int_of_isCents hns, safe_int_of_isCents habs]
  ring

/-- Witness for `transform_gross_revenue_eq` at a concrete row:
subtotal 1.50, receipt subtotal 3.00, service charge 0.30, discount −0.25,
tax 0.12, quantity 2. -/
theorem transform_gross_revenue_eq_witness :
    ((-1/4 : ℚ) ≤ 0 ∧ IsCents (3/2 : ℚ) ∧ IsCents (-1/4 : ℚ) ∧ IsCents (3/25 : ℚ)) ∧
    (transform_storehub_row (3/2) 3 (3/10) (-1/4) (3/25) 2 0).gross_revenue =
      (transform_storehub_row (3/2) 3 (3/10) (-1/4) (3/25) 2 0).subtotal +
      (transform_storehub_row (3/2) 3 (3/10) (-1/4) (3/25) 2 0).tax +
      (transform_storehub_row (3/2) 3 (3/10) (-1/4) (3/25) 2 0).allocated_service_charge -
      (transform_storehub_row (3/2) 3 (3/10) (-1/4) (3/25) 2 0).discount :=
  ⟨⟨by norm_num, ⟨150, by norm_num⟩, ⟨-25, by norm_num⟩, ⟨12, by norm_num⟩⟩,
    transform_gross_revenue_eq (3/2) 3 (3/10) (-1/4) (3/25) 2 0
      (by norm_num) ⟨150, by norm_num⟩ ⟨-25, by norm_num⟩ ⟨12, by norm_num⟩⟩

end DataProcessing

namespace Anomaly

/-- One row of the `alerts` table, as inserted by `create_alert` in
`anomaly.py`.  Timestamps are integer seconds. -/
structure AlertRow where
  tenant : ℕ
  atype : String
  severity : String
  fingerprint : String
  createdAt : ℤ
  deriving DecidableEq, Repr

/-- `COOLDOWN_DAYS = 7`, expressed in seconds (`timedelta(days=7)`). -/
def cooldownSeconds : ℤ := 7 * 86400

/-- `check_cooldown(tenant_id, fingerprint)` from `anomaly.py`: true iff the
`alerts` table holds a row of this tenant with this fingerprint created at or
after `now - 7 days`. -/
def check_cooldown (store : List AlertRow) (tenant : ℕ) (fingerprint : String)
    (now : ℤ) : Bool :=
  store.any fun a =>
    a.tenant == tenant &&
      (a.fingerprint == fingerprint && decide (now - cooldownSeconds ≤ a.createdAt))

/-- `create_alert` from `anomaly.py`: skip (returning `None`) when the
fingerprint is in cooldown for this tenant, otherwise insert the alert row
and return it. -/
def create_alert (store : List AlertRow) (tenant : ℕ)
    (atype severity fingerprint : String) (now : ℤ) :
    List AlertRow × Option AlertRow :=
  if check_cooldown store tenant fingerprint now then (store, none)
  else
    let a : AlertRow := ⟨tenant, atype, severity, fingerprint, now⟩
    (store ++ [a], some a)

/-- A sequence of `create_alert` calls against an evolving alerts table, as a
scan pass performs; returns the final table and the number of alerts created.
Each request is `(type, severity, fingerprint)`. -/
def create_alerts (tenant : ℕ) (now : ℤ) :
    List AlertRow → List (String × String × String) → List AlertRow × ℕ
  | store, [] => (store, 0)
  | store, (ty, sev, fp) :: rest =>
    match create_alert store tenant ty sev fp now with
    | (s, o) =>
      let r := create_alerts tenant now s rest
      (r.1, (if o.isSome then 1 else 0) + r.2)

/-- `detect_revenue_anomalies` from `anomaly.py`, with the two external
revenue reads (`get_period_revenue` over the trailing and the prior 7-day
windows anchored at the latest transaction date) passed in as
`current_revenue` and `prior_revenue`, and the window start date rendered as
`period_key`.  Returns the new alerts table and the created count. -/
def detect_revenue_anomalies (store : List AlertRow) (tenant : ℕ)
    (threshold_pct : ℚ) (prior_revenue current_revenue : ℤ)
    (period_key : String) (now : ℤ) : List AlertRow × ℕ :=
  if prior_revenue = 0 then (store, 0)
  else
    let change_pct : ℚ :=
      ((current_revenue : ℚ) - (prior_revenue : ℚ)) / (prior_revenue : ℚ) * 100
    if change_pct ≤ -threshold_pct then
      let severity := if -30 < change_pct then "warning" else "critical"
      match create_alert store tenant "revenue_drop" severity
          ("revenue_drop:" ++ period_key) now with
      | (s, some _) => (s, 1)
      | (s, none) => (s, 0)
    else (store, 0)

theorem check_cooldown_eq_true {store : List AlertRow} {t : ℕ} {fp : String} {now : ℤ}
    (h : ∃ a ∈ store, a.tenant = t ∧ a.fingerprint = fp ∧
      now - cooldownSeconds ≤ a.createdAt) :
    check_cooldown store t fp now = true := by
  obtain ⟨a, ha, h1, h2, h3⟩ := h
  unfold check_cooldown
  rw [List.any_eq_true]
  exact ⟨a, ha, by simp [h1, h2, h3]⟩

theorem check_cooldown_forall {store : List AlertRow} {t : ℕ} {fp : String} {now : ℤ}
    (h : check_cooldown store t fp now = false) :
    ∀ a ∈ store, a.tenant = t → a.fingerprint = fp →
      a.createdAt < now - cooldownSeconds := by
  intro a ha h1 h2
  unfold check_cooldown at h
  rw [List.any_eq_false] at h
  have := h a ha
  simp [h1, h2] at this
  linarith

theorem create_alert_suppressed (store : List AlertRow) (t : ℕ)
    (ty sev fp : String) (now : ℤ)
    (h : ∃ a ∈ store, a.tenant = t ∧ a.fingerprint = fp ∧
      now - cooldownSeconds ≤ a.createdAt) :
    create_alert store t ty sev fp now = (store, none) := by
  unfold create_alert
  rw [check_cooldown_eq_true h, if_pos rfl]

theorem create_alerts_all_cooldown (t : ℕ) (now : ℤ) (store : List AlertRow)
    (reqs : List (String × String × String))
    (h : ∀ r ∈ reqs, ∃ a ∈ store, a.tenant = t ∧ a.fingerprint = r.2.2 ∧
      now - cooldownSeconds ≤ a.createdAt) :
    create_alerts t now store reqs = (store, 0) := by
  induction reqs with
  | nil => rfl
  | cons r rest ih =>
    obtain ⟨ty, sev, fp⟩ := r
    have hr := h (ty, sev, fp) (List.mem_cons_self _ _)
    have hsup := create_alert_suppressed store t ty sev fp now hr
    rw [create_alerts, hsup]
    have := ih (fun r hrr => h r (List.mem_cons_of_mem _ hrr))
    simp [this]

/-- Two alert rows of the same tenant with the same fingerprint were created
more than one cooldown window apart. -/
def AlertGap (a b : AlertRow) : Prop :=
  a.tenant = b.tenant → a.fingerprint = b.fingerprint →
    a.createdAt + cooldownSeconds < b.createdAt ∨
    b.createdAt + cooldownSeconds < a.createdAt

theorem create_alert_pairwise (store : List AlertRow) (t : ℕ)
    (ty sev fp : String) (now : ℤ)
    (hp : store.Pairwise AlertGap) :
    ((create_alert store t ty sev fp now).1).Pairwise AlertGap := by
  unfold create_alert
  cases hcc : check_cooldown store t fp now with
  | true => simpa using hp
  | false =>
    simp only [Bool.false_eq_true, if_neg, if_false]
    rw [List.pairwise_append]
    refine ⟨hp, by simp [AlertGap], ?_⟩
    intro a ha b hb
    simp only [List.mem_singleton] at hb
    subst hb
    intro h1 h2
    have := check_cooldown_forall hcc a ha h1 h2
    left
    simp only
    linarith

/-- **C6.** Alert de-duplication by fingerprint within the 7-day cooldown:
(1) `create_alert` inserts nothing and returns `None` when an alert with the
same fingerprint for the same tenant was created within the last 7 days;
(2) a second scan pass in the same window over an unchanged ledger (hence the
same fingerprints) creates zero new alerts and leaves the table unchanged;
(3) the invariant that no two same-tenant same-fingerprint alerts lie within
one cooldown window of each other is preserved by `create_alert`. -/
theorem alert_cooldown_dedup :
    (∀ (store : List AlertRow) (t : ℕ) (ty sev fp : String) (now : ℤ),
      (∃ a ∈ store, a.tenant = t ∧ a.fingerprint = fp ∧
        now - cooldownSeconds ≤ a.createdAt) →
      create_alert store t ty sev fp now = (store, none)) ∧
    (∀ (t : ℕ) (now : ℤ) (store : List AlertRow)
        (reqs : List (String × String × String)),
      (∀ r ∈ reqs, ∃ a ∈ store, a.tenant = t ∧ a.fingerprint = r.2.2 ∧
        now - cooldownSeconds ≤ a.createdAt) →
      create_alerts t now store reqs = (store, 0)) ∧
    (∀ (store : List AlertRow) (t : ℕ) (ty sev fp : String) (now : ℤ),
      store.Pairwise AlertGap →
      ((create_alert store t ty sev fp now).1).Pairwise AlertGap) :=
  ⟨create_alert_suppressed, create_alerts_all_cooldown, create_alert_pairwise⟩

/-- Witness for `alert_cooldown_dedup` at a concrete alerts table: one alert
of tenant 1 with fingerprint "f" created 100 seconds before the second call. -/
theorem alert_cooldown_dedup_witness :
    create_alert [⟨1, "revenue_drop", "critical", "f", 0⟩] 1 "revenue_drop" "critical" "f" 100 =
      ([⟨1, "revenue_drop", "critical", "f", 0⟩], none) ∧
    create_alerts 1 100 [⟨1, "revenue_drop", "critical", "f", 0⟩]
        [("revenue_drop", "critical", "f")] =
      ([⟨1, "revenue_drop", "critical", "f", 0⟩], 0) ∧
    ((create_alert [⟨1, "revenue_drop", "critical", "f", 0⟩] 1 "item_spike" "info" "g" 100).1).Pairwise
      AlertGap :=
  ⟨alert_cooldown_dedup.1 _ 1 _ _ "f" 100
      ⟨_, List.mem_singleton_self _, rfl, rfl, by norm_num [cooldownSeconds]⟩,
    alert_cooldown_dedup.2.1 1 100 _ _
      (by
        intro r hr
        simp only [List.mem_singleton] at hr
        subst hr
        exact ⟨_, List.mem_singleton_self _, rfl, rfl, by norm_num [cooldownSeconds]⟩),
    alert_cooldown_dedup.2.2 _ 1 _ _ "g" 100 (List.pairwise_singleton _ _)⟩

/-- **C5 counterexample.** At a drop of exactly 30% (prior 100, current 70,
threshold 20%) the code emits a `revenue_drop` alert of severity `critical`,
while the claim ("critical when the drop exceeds 30%, warning otherwise")
predicts `warning`: 30 does not exceed 30. -/
theorem detect_revenue_severity_cex :
    (detect_revenue_anomalies [] 1 20 100 70 "2024-01-01" 0).1.map AlertRow.severity
      = ["critical"] ∧
    (((70 : ℤ) : ℚ) - ((100 : ℤ) : ℚ)) / ((100 : ℤ) : ℚ) * 100 = -30 ∧
    ¬ (30 : ℚ) > 30 := by
  refine ⟨?_, by norm_num, by norm_num⟩
  norm_num [detect_revenue_anomalies, create_alert, check_cooldown]

/-- **C5 (amended).** With no same-fingerprint alert in cooldown, the
revenue-drop check emits a `revenue_drop` alert iff the prior-period revenue
is non-zero and `(current - prior) / prior ≤ -threshold%`; the severity is
`critical` when the drop is 30% or more (`change_pct ≤ -30`) and `warning`
otherwise.  When the prior-period revenue is zero, nothing is emitted. -/
theorem detect_revenue_spec (store : List AlertRow) (tenant : ℕ)
    (thr : ℚ) (prior current : ℤ) (pk : String) (now : ℤ)
    (h : check_cooldown store tenant ("revenue_drop:" ++ pk) now = false) :
    detect_revenue_anomalies store tenant thr prior current pk now =
      if prior ≠ 0 ∧ ((current : ℚ) - (prior : ℚ)) / (prior : ℚ) * 100 ≤ -thr then
        (store ++ [⟨tenant, "revenue_drop",
            if ((current : ℚ) - (prior : ℚ)) / (prior : ℚ) * 100 ≤ -30
              then "critical" else "warning",
            "revenue_drop:" ++ pk, now⟩], 1)
      else (store, 0) := by
  have sev_eq : ∀ c : ℚ,
      (if -30 < c then "warning" else "critical") =
        (if c ≤ -30 then "critical" else "warning") := by
    intro c
    by_cases h30 : c ≤ -30
    · rw [if_neg (not_lt.mpr h30), if_pos h30]
    · rw [if_pos (not_le.mp h30), if_neg h30]
  unfold detect_revenue_anomalies
  by_cases hp : prior = 0
  · simp [hp]
  · rw [if_neg hp]
    simp only
    set c : ℚ := ((current : ℚ) - (prior : ℚ)) / (prior : ℚ) * 100 with hc
    by_cases hdrop : c ≤ -thr
    · rw [if_pos hdrop, if_pos (And.intro hp hdrop), sev_eq c]
      unfold create_alert
      rw [h]
      simp
    · rw [if_neg hdrop, if_neg (fun hcon => hdrop hcon.2)]

/-- Witness for `detect_revenue_spec`: empty alerts table, threshold 20%,
prior revenue 100, current revenue 50 (a 50% drop). -/
theorem detect_revenue_spec_witness :
    check_cooldown [] 1 ("revenue_drop:" ++ "p") 0 = false ∧
    detect_revenue_anomalies [] 1 20 100 50 "p" 0 =
      if (100 : ℤ) ≠ 0 ∧
          (((50 : ℤ) : ℚ) - ((100 : ℤ) : ℚ)) / ((100 : ℤ) : ℚ) * 100 ≤ -20 then
        ([⟨1, "revenue_drop",
            if (((50 : ℤ) : ℚ) - ((100 : ℤ) : ℚ)) / ((100 : ℤ) : ℚ) * 100 ≤ -30
              then "critical" else "warning",
            "revenue_drop:" ++ "p", 0⟩], 1)
      else ([], 0) :=
  ⟨rfl, by
    have := detect_revenue_spec [] 1 20 100 50 "p" 0 rfl
    simpa using this⟩

theorem check_cooldown_eq_filter (S : List AlertRow) (t : ℕ) (fp : String) (now : ℤ) :
    check_cooldown S t fp now =
      (S.filter fun a => a.tenant == t).any
        (fun a => a.fingerprint == fp && decide (now - cooldownSeconds ≤ a.createdAt)) := by
  unfold check_cooldown
  rw [List.any_filter]

/-- **C10.** Alert de-duplication is tenant-scoped: the cooldown decision,
whether an alert is created, and the tenant's own slice of the resulting
alerts table depend only on the tenant's own existing alerts.  In particular
alerts of another tenant with the same fingerprint never suppress creation. -/
theorem create_alert_tenant_scoped (S1 S2 : List AlertRow) (t : ℕ)
    (ty sev fp : String) (now : ℤ)
    (h : S1.filter (fun a => a.tenant == t) = S2.filter (fun a => a.tenant == t)) :
    check_cooldown S1 t fp now = check_cooldown S2 t fp now ∧
    (create_alert S1 t ty sev fp now).2 = (create_alert S2 t ty sev fp now).2 ∧
    ((create_alert S1 t ty sev fp now).1).filter (fun a => a.tenant == t) =
      ((create_alert S2 t ty sev fp now).1).filter (fun a => a.tenant == t) := by
  have hcc : check_cooldown S1 t fp now = check_cooldown S2 t fp now := by
    rw [check_cooldown_eq_filter, check_cooldown_eq_filter, h]
  refine ⟨hcc, ?_, ?_⟩ <;>
  · unfold create_alert
    rw [hcc]
    cases hb : check_cooldown S2 t fp now
    · simp [List.filter_append, h]
    · simp [h]

/-- Witness for `create_alert_tenant_scoped`: tenant 2 has a fresh alert with
fingerprint "f"; tenant 1's table is empty in both worlds, and tenant 1's
alert with the same fingerprint is still created. -/
theorem create_alert_tenant_scoped_witness :
    ([⟨2, "revenue_drop", "critical", "f", 90⟩] :
        List AlertRow).filter (fun a => a.tenant == 1) =
      ([] : List AlertRow).filter (fun a => a.tenant == 1) ∧
    ((create_alert [⟨2, "revenue_drop", "critical", "f", 90⟩] 1 "revenue_drop" "warning" "f" 100).2 =
      (create_alert [] 1 "revenue_drop" "warning" "f" 100).2 ∧
    ((create_alert [⟨2, "revenue_drop", "critical", "f", 90⟩] 1 "revenue_drop" "warning" "f" 100).1).filter
        (fun a => a.tenant == 1) =
      ((create_alert [] 1 "revenue_drop" "warning" "f" 100).1).filter
        (fun a => a.tenant == 1)) :=
  ⟨rfl, (create_alert_tenant_scoped [⟨2, "revenue_drop", "critical", "f", 90⟩] [] 1
      "revenue_drop" "warning" "f" 100 rfl).2⟩

end Anomaly

namespace Ingest

/-- A transformed item row, abstracted to its upsert conflict key
`(tenant_id, receipt_number, item_name, receipt_timestamp)`. -/
abbrev Row := ℕ

inductive JobStatus
  | pending
  | processing
  | completed
  | failed
  | cancelled
  deriving DecidableEq, Repr

/-- The downstream rebuilds the pipeline can invoke after an ingest run:
`run_anomaly_scan`, `refresh_all_summaries` (both called inside
`process_csv`) and `regenerate_menu_items` (called by the background task
`process_import_task` in `routes/data.py`). -/
inductive Down
  | anomalyScan
  | summaryRefresh
  | menuRollup
  deriving DecidableEq, Repr

/-- How `process_csv` returned: normal completion, early abort after repeated
batch failures, or the cooperative-cancellation return. -/
inductive ExitKind
  | completed
  | aborted
  | cancelled
  deriving DecidableEq, Repr

/-- The world around one ingest run: which bulk upsert calls raise an
exception (indexed by bulk-call order), whether the per-row fallback upserts
raise, and where an external cancel request lands relative to the loop's own
database operations.  `cancelBetween n` lands between the progress update and
the status re-read at the boundary of bulk call `n`; `cancelAfterCheck n`
lands right after that boundary's status re-read (i.e. while the next batch
is still being collected); `cancelFinal` lands after the loop, just before
the final `completed` status write. -/
structure Env where
  bulkFails : ℕ → Bool
  rowFails : Bool
  cancelBetween : Option ℕ
  cancelAfterCheck : Option ℕ
  cancelFinal : Bool

/-- `batch_size = 500` from `process_csv`. -/
def batch_size : ℕ := 500

/-- `max_consecutive_failures = 5` from `process_csv`. -/
def max_consecutive_failures : ℕ := 5

/-- The error message written when the consecutive-failure threshold is hit. -/
def abortMessage : String := "Import aborted after 5 consecutive batch failures"

/-- The mutable state of one `process_csv` run: the pending `transactions`
batch, the running counters, the `transactions` table (as the list of stored
conflict keys), and the job row's status together with the chronological
list of status values written to it (by the run or by an external cancel).
`cancelSeen`/`upsertsAfterCancel` instrument how many bulk upsert calls
happen after an external cancel request has landed. -/
structure St where
  buffer : List Row
  inserted : ℕ
  duplicate_skipped : ℕ
  errors : ℕ
  consecutive_failures : ℕ
  flushes : ℕ
  processed : ℕ
  ledger : List Row
  status : JobStatus
  trace : List JobStatus
  cancelSeen : Bool
  upsertsAfterCancel : ℕ
  deriving Repr

/-- The observable outcome of a run: the returned stats dict, the final
`transactions` table, the sequence of job-status writes, and the downstream
rebuild calls that were triggered. -/
structure RunOut where
  exit : ExitKind
  processed : ℕ
  inserted : ℕ
  duplicate_skipped : ℕ
  errors : ℕ
  flushes : ℕ
  upsertsAfterCancel : ℕ
  ledger : List Row
  trace : List JobStatus
  errorMessage : Option String
  downstream : List Down
  deriving DecidableEq, Repr

/-- Upsert of one row with `ignore_duplicates=True`: insert if the conflict
key is absent, otherwise silently skip. -/
def upsertOne (ledger : List Row) (r : Row) : List Row × Bool :=
  if r ∈ ledger then (ledger, false) else (ledger ++ [r], true)

/-- One bulk upsert of a whole batch; returns the new table and the number of
rows actually inserted (`len(result.data)`). -/
def upsertBatch : List Row → List Row → List Row × ℕ
  | ledger, [] => (ledger, 0)
  | ledger, r :: rs =>
    match upsertOne ledger r with
    | (l, ok) =>
      let rest := upsertBatch l rs
      (rest.1, (if ok then 1 else 0) + rest.2)

/-- The row-by-row fallback after a failed bulk call: upsert each row of the
batch individually; returns the new table, the inserted count and the
duplicate count. -/
def fallbackRows : List Row → List Row → List Row × ℕ × ℕ
  | ledger, [] => (ledger, 0, 0)
  | ledger, r :: rs =>
    match upsertOne ledger r with
    | (l, ok) =>
      let rest := fallbackRows l rs
      (rest.1, (if ok then 1 else 0) + rest.2.1, (if ok then 0 else 1) + rest.2.2)

/-- `update_job_status`: write the given status to the job row
unconditionally (the code has no transition guard). -/
def update_job_status (st : St) (s : JobStatus) : St :=
  { st with status := s, trace := st.trace ++ [s] }

/-- An external actor's cancel request: the job row's status becomes
`cancelled`. -/
def externalCancel (st : St) : St :=
  { st with status := JobStatus.cancelled,
            trace := st.trace ++ [JobStatus.cancelled],
            cancelSeen := true }

def applyCancelAt (o : Option ℕ) (k : ℕ) (st : St) : St :=
  if o = some k then externalCancel st else st

/-- The in-loop batch insert of `process_csv` (lines 147–194): try the bulk
upsert; on success add the inserted/duplicate counts and reset the
consecutive-failure counter; on an exception increment it, retry the rows
one by one (each raising row is recorded in the error list), and reset the
counter if any individual insert succeeded.  The batch list is cleared in
both paths. -/
def flushBatch (env : Env) (st : St) : St :=
  let k := st.flushes
  let st := { st with
    flushes := st.flushes + 1,
    upsertsAfterCancel := st.upsertsAfterCancel + (if st.cancelSeen then 1 else 0) }
  if env.bulkFails k then
    let st := { st with consecutive_failures := st.consecutive_failures + 1 }
    if env.rowFails then
      { st with errors := st.errors + st.buffer.length, buffer := [] }
    else
      let res := fallbackRows st.ledger st.buffer
      let st := { st with
        ledger := res.1,
        inserted := st.inserted + res.2.1,
        duplicate_skipped := st.duplicate_skipped + res.2.2,
        buffer := [] }
      if 0 < res.2.1 then { st with consecutive_failures := 0 } else st
  else
    let res := upsertBatch st.ledger st.buffer
    { st with
      ledger := res.1,
      inserted := st.inserted + res.2,
      duplicate_skipped := st.duplicate_skipped + (st.buffer.length - res.2),
      consecutive_failures := 0,
      buffer := [] }

/-- The trailing "insert remaining" flush of `process_csv` (lines 245–273):
same bulk-then-per-row structure, but it does not touch the
consecutive-failure counter. -/
def tailFlush (env : Env) (st : St) : St :=
  let k := st.flushes
  let st := { st with
    flushes := st.flushes + 1,
    upsertsAfterCancel := st.upsertsAfterCancel + (if st.cancelSeen then 1 else 0) }
  if env.bulkFails k then
    if env.rowFails then
      { st with errors := st.errors + st.buffer.length, buffer := [] }
    else
      let res := fallbackRows st.ledger st.buffer
      { st with
        ledger := res.1,
        inserted := st.inserted + res.2.1,
        duplicate_skipped := st.duplicate_skipped + res.2.2,
        buffer := [] }
  else
    let res := upsertBatch st.ledger st.buffer
    { st with
      ledger := res.1,
      inserted := st.inserted + res.2,
      duplicate_skipped := st.duplicate_skipped + (st.buffer.length - res.2),
      buffer := [] }

def mkOut (st : St) (e : ExitKind) (msg : Option String) (down : List Down) : RunOut :=
  { exit := e, processed := st.processed, inserted := st.inserted,
    duplicate_skipped := st.duplicate_skipped, errors := st.errors,
    flushes := st.flushes, upsertsAfterCancel := st.upsertsAfterCancel,
    ledger := st.ledger, trace := st.trace, errorMessage := msg,
    downstream := down }

/-- The tail of `process_csv` after the row loop: flush the remaining batch,
write the final `completed` status (unconditionally), and — only when
`inserted > 0` — run the anomaly scan and then the summary refresh. -/
def finish (env : Env) (st : St) : RunOut :=
  let st := if st.buffer.isEmpty then st else tailFlush env st
  let st := if env.cancelFinal then externalCancel st else st
  let st := update_job_status st JobStatus.completed
  let down := (if 0 < st.inserted then [Down.anomalyScan] else []) ++
              (if 0 < st.inserted then [Down.summaryRefresh] else [])
  mkOut st ExitKind.completed none down

/-- The row loop of `process_csv`: append each transformed row to the pending
batch; once the batch is full, run the bulk insert, then (in this order)
check the consecutive-failure threshold, write a progress update with
status `processing`, and re-read the job status to detect an external
cancellation. -/
def loop (env : Env) : List Row → St → RunOut
  | [], st => finish env st
  | r :: rs, st =>
    let st := { st with buffer := st.buffer ++ [r], processed := st.processed + 1 }
    if batch_size ≤ st.buffer.length then
      let k := st.flushes
      let st := flushBatch env st
      if max_consecutive_failures ≤ st.consecutive_failures then
        let st := update_job_status st JobStatus.failed
        mkOut st ExitKind.aborted (some abortMessage) []
      else
        let st := update_job_status st JobStatus.processing
        let st := applyCancelAt env.cancelBetween k st
        if st.status = JobStatus.cancelled then
          mkOut st ExitKind.cancelled none []
        else
          let st := applyCancelAt env.cancelAfterCheck k st
          loop env rs st
    else loop env rs st

/-- `process_csv`: the job starts `pending`, is moved to `processing`, and
the filtered item rows are streamed through the batch loop against the given
`transactions` table. -/
def process_csv (env : Env) (ledger : List Row) (rows : List Row) : RunOut :=
  let st : St :=
    { buffer := [], inserted := 0, duplicate_skipped := 0, errors := 0,
      consecutive_failures := 0, flushes := 0, processed := 0,
      ledger := ledger, status := JobStatus.pending,
      trace := [JobStatus.pending], cancelSeen := false,
      upsertsAfterCancel := 0 }
  let st := update_job_status st JobStatus.processing
  loop env rows st

/-- `process_import_task` from `routes/data.py`: run `process_csv`, then
invoke `regenerate_menu_items` — unconditionally, whatever `process_csv`
returned. -/
def process_import_task (env : Env) (ledger : List Row) (rows : List Row) : RunOut :=
  let o := process_csv env ledger rows
  { o with downstream := o.downstream ++ [Down.menuRollup] }

/-- An environment where every storage call succeeds and nobody cancels. -/
def okEnv : Env :=
  { bulkFails := fun _ => false, rowFails := false,
    cancelBetween := none, cancelAfterCheck := none, cancelFinal := false }

/-- An environment where every bulk call and every per-row fallback raises. -/
def allFailEnv : Env :=
  { bulkFails := fun _ => true, rowFails := true,
    cancelBetween := none, cancelAfterCheck := none, cancelFinal := false }

/-- Legality of a sequence of job-status writes under the transition rules
pending→processing, processing→{completed, failed, cancelled}; rewriting the
current value is not a transition, and terminal states admit no further
transition. -/
def allowedStep (a b : JobStatus) : Bool :=
  a == b ||
  (a == JobStatus.pending && b == JobStatus.processing) ||
  (a == JobStatus.processing &&
    (b == JobStatus.completed || b == JobStatus.failed || b == JobStatus.cancelled))

def legalSeq : List JobStatus → Bool
  | [] => true
  | [_] => true
  | a :: b :: rest => allowedStep a b && legalSeq (b :: rest)

/-- An environment where the only external event is a cancel request landing
after the loop, just before the final status write. -/
def cancelFinalEnv : Env :=
  { bulkFails := fun _ => false, rowFails := false,
    cancelBetween := none, cancelAfterCheck := none, cancelFinal := true }

/-- An environment where the cancel request lands while the second batch is
being collected (right after the first boundary's status re-read). -/
def cancelMidRunEnv : Env :=
  { bulkFails := fun _ => false, rowFails := false,
    cancelBetween := none, cancelAfterCheck := some 0, cancelFinal := false }

theorem allFailEnv_bulkFails (k : ℕ) : allFailEnv.bulkFails k = true := rfl

theorem allFailEnv_rowFails : allFailEnv.rowFails = true := rfl

theorem allFailEnv_cancelBetween : allFailEnv.cancelBetween = none := rfl

theorem allFailEnv_cancelAfterCheck : allFailEnv.cancelAfterCheck = none := rfl

theorem allFail_loop_aborts (rs : List Row) (st : St)
    (hb : st.buffer.length < 500)
    (hc : st.consecutive_failures < 5)
    (hlen : (5 - st.consecutive_failures) * 500 - st.buffer.length ≤ rs.length) :
    (loop allFailEnv rs st).exit = ExitKind.aborted ∧
    (loop allFailEnv rs st).processed =
      st.processed + ((5 - st.consecutive_failures) * 500 - st.buffer.length) ∧
    (loop allFailEnv rs st).inserted = st.inserted ∧
    (loop allFailEnv rs st).duplicate_skipped = st.duplicate_skipped ∧
    (loop allFailEnv rs st).errors = st.errors + (5 - st.consecutive_failures) * 500 ∧
    (loop allFailEnv rs st).flushes = st.flushes + (5 - st.consecutive_failures) ∧
    (loop allFailEnv rs st).ledger = st.ledger ∧
    (loop allFailEnv rs st).errorMessage = some abortMessage ∧
    (loop allFailEnv rs st).trace.getLast? = some JobStatus.failed := by
  induction rs generalizing st with
  | nil =>
    exfalso
    simp only [List.length_nil] at hlen
    omega
  | cons r rs ih =>
    rw [loop]
    simp only [batch_size, max_consecutive_failures, flushBatch,
      allFailEnv_bulkFails, allFailEnv_rowFails, allFailEnv_cancelBetween,
      allFailEnv_cancelAfterCheck, applyCancelAt, update_job_status,
      List.length_append, List.length_cons, List.length_nil, zero_add,
      if_true]
    rw [List.length_cons] at hlen
    by_cases hfl : 500 ≤ st.buffer.length + 1
    · rw [if_pos hfl]
      have hb499 : st.buffer.length = 499 := by omega
      by_cases habort : 5 ≤ st.consecutive_failures + 1
      · -- fifth consecutive failure: the run aborts at this boundary
        have hc4 : st.consecutive_failures = 4 := by omega
        rw [if_pos habort]
        simp only [mkOut]
        refine ⟨trivial, by omega, trivial, trivial, by omega, by omega, trivial, trivial, ?_⟩
        exact List.getLast?_concat _
      · -- below the threshold: progress update, cancel check, next batch
        rw [if_neg habort]
        rw [if_neg (by simp)]
        rw [if_neg (by simp)]
        rw [if_neg (by simp)]
        obtain ⟨h1, h2, h3, h4, h5, h6, h7, h8, h9⟩ := ih
          { st with
            buffer := [], processed := st.processed + 1,
            flushes := st.flushes + 1,
            upsertsAfterCancel :=
              st.upsertsAfterCancel + (if st.cancelSeen = true then 1 else 0),
            consecutive_failures := st.consecutive_failures + 1,
            errors := st.errors + (st.buffer.length + 1),
            status := JobStatus.processing,
            trace := st.trace ++ [JobStatus.processing] }
          (by simp) (by simp; omega) (by simp; omega)
        simp only [List.length_nil] at h1 h2 h3 h4 h5 h6 h7 h8 h9
        refine ⟨h1, ?_, h3, h4, ?_, ?_, h7, h8, h9⟩
        · rw [h2]; omega
        · rw [h5]; omega
        · rw [h6]; omega
    · -- batch not yet full: keep collecting
      rw [if_neg hfl]
      obtain ⟨h1, h2, h3, h4, h5, h6, h7, h8, h9⟩ :=
        ih { st with buffer := st.buffer ++ [r], processed := st.processed + 1 }
          (by simp; omega) hc (by simp; omega)
      simp only [List.length_append, List.length_cons, List.length_nil] at h2 h5 h6
      refine ⟨h1, ?_, h3, h4, h5, h6, h7, h8, h9⟩
      rw [h2]; omega

/-- **C2.** Against a storage layer where every batch upsert and every
per-row fallback upsert fails, a run over a file with at least five full
batches (2500 item rows) stops early after exactly 5 consecutive batch-level
failures: the result is marked `aborted`, exactly 5 bulk calls were made, the
job is marked `failed` with the explicit abort reason, and the
processed/inserted counts reflect only the work done before the threshold
(5 × 500 rows processed, 0 rows inserted since every fallback also failed). -/
theorem allFail_aborts_after_five (ledger rows : List Row)
    (h : 2500 ≤ rows.length) :
    (process_csv allFailEnv ledger rows).exit = ExitKind.aborted ∧
    (process_csv allFailEnv ledger rows).processed = 2500 ∧
    (process_csv allFailEnv ledger rows).inserted = 0 ∧
    (process_csv allFailEnv ledger rows).flushes = 5 ∧
    (process_csv allFailEnv ledger rows).errors = 2500 ∧
    (process_csv allFailEnv ledger rows).duplicate_skipped = 0 ∧
    (process_csv allFailEnv ledger rows).ledger = ledger ∧
    (process_csv allFailEnv ledger rows).errorMessage = some abortMessage ∧
    (process_csv allFailEnv ledger rows).trace.getLast? = some JobStatus.failed := by
  unfold process_csv
  simp only [update_job_status]
  obtain ⟨h1, h2, h3, h4, h5, h6, h7, h8, h9⟩ := allFail_loop_aborts rows
    { buffer := [], inserted := 0, duplicate_skipped := 0, errors := 0,
      consecutive_failures := 0, flushes := 0, processed := 0,
      ledger := ledger, status := JobStatus.processing,
      trace := [JobStatus.pending] ++ [JobStatus.processing], cancelSeen := false,
      upsertsAfterCancel := 0 }
    (by simp) (by simp) (by simpa using h)
  simp only [List.length_nil] at h1 h2 h3 h4 h5 h6 h7 h8 h9
  refine ⟨h1, by rw [h2], by rw [h3], by rw [h6], by rw [h5], by rw [h4], by rw [h7],
    h8, h9⟩

/-- Witness for `allFail_aborts_after_five` on a concrete 2500-row file. -/
theorem allFail_aborts_after_five_witness :
    2500 ≤ (List.replicate 2500 (0 : Row)).length ∧
    ((process_csv allFailEnv [] (List.replicate 2500 (0 : Row))).exit = ExitKind.aborted ∧
      (process_csv allFailEnv [] (List.replicate 2500 (0 : Row))).processed = 2500 ∧
      (process_csv allFailEnv [] (List.replicate 2500 (0 : Row))).inserted = 0 ∧
      (process_csv allFailEnv [] (List.replicate 2500 (0 : Row))).flushes = 5 ∧
      (process_csv allFailEnv [] (List.replicate 2500 (0 : Row))).errors = 2500 ∧
      (process_csv allFailEnv [] (List.replicate 2500 (0 : Row))).duplicate_skipped = 0 ∧
      (process_csv allFailEnv [] (List.replicate 2500 (0 : Row))).ledger = [] ∧
      (process_csv allFailEnv [] (List.replicate 2500 (0 : Row))).errorMessage =
        some abortMessage ∧
      (process_csv allFailEnv [] (List.replicate 2500 (0 : Row))).trace.getLast? =
        some JobStatus.failed) :=
  ⟨by rw [List.length_replicate],
    allFail_aborts_after_five [] (List.replicate 2500 (0 : Row))
      (by rw [List.length_replicate])⟩

theorem okEnv_bulkFails (k : ℕ) : okEnv.bulkFails k = false := rfl

theorem okEnv_cancelBetween : okEnv.cancelBetween = none := rfl

theorem okEnv_cancelAfterCheck : okEnv.cancelAfterCheck = none := rfl

theorem okEnv_cancelFinal : okEnv.cancelFinal = false := rfl

theorem upsertBatch_fresh (batch : List Row) : ∀ ledger : List Row, batch.Nodup →
    (∀ x ∈ batch, x ∉ ledger) →
    upsertBatch ledger batch = (ledger ++ batch, batch.length) := by
  induction batch with
  | nil => intro ledger _ _; simp [upsertBatch]
  | cons r bs ih =>
    intro ledger hnd hdisj
    rw [List.nodup_cons] at hnd
    obtain ⟨hrbs, hbs⟩ := hnd
    have hr : r ∉ ledger := hdisj r (List.mem_cons_self _ _)
    have hrec := ih (ledger ++ [r]) hbs (by
      intro x hx
      rw [List.mem_append]
      rintro (hxl | hxr)
      · exact hdisj x (List.mem_cons_of_mem _ hx) hxl
      · rw [List.mem_singleton] at hxr
        exact hrbs (hxr ▸ hx))
    rw [upsertBatch]
    simp only [upsertOne, if_neg hr, hrec]
    refine Prod.ext ?_ ?_
    · simp
    · simp [Nat.add_comm]

theorem upsertBatch_stale (batch : List Row) : ∀ ledger : List Row,
    (∀ x ∈ batch, x ∈ ledger) →
    upsertBatch ledger batch = (ledger, 0) := by
  induction batch with
  | nil => intro ledger _; simp [upsertBatch]
  | cons r bs ih =>
    intro ledger hsub
    have hr : r ∈ ledger := hsub r (List.mem_cons_self _ _)
    have hrec := ih ledger (fun x hx => hsub x (List.mem_cons_of_mem _ hx))
    rw [upsertBatch]
    simp [upsertOne, if_pos hr, hrec]

theorem ok_loop_fresh (rs : List Row) : ∀ st : St,
    st.consecutive_failures = 0 →
    st.buffer.length < 500 →
    (st.buffer ++ rs).Nodup →
    (∀ x ∈ st.buffer ++ rs, x ∉ st.ledger) →
    (loop okEnv rs st).exit = ExitKind.completed ∧
    (loop okEnv rs st).inserted = st.inserted + (st.buffer ++ rs).length ∧
    (loop okEnv rs st).duplicate_skipped = st.duplicate_skipped ∧
    (loop okEnv rs st).ledger = st.ledger ++ (st.buffer ++ rs) := by
  induction rs with
  | nil =>
    intro st hcf hb hnd hdisj
    simp only [loop]
    rw [List.append_nil] at hnd hdisj ⊢
    unfold finish
    by_cases hbe : st.buffer.isEmpty = true
    · rw [if_pos hbe]
      have hbuf : st.buffer = [] := by simpa using hbe
      simp [mkOut, update_job_status, okEnv_cancelFinal, hbuf]
    · rw [if_neg hbe]
      have hub : upsertBatch st.ledger st.buffer =
          (st.ledger ++ st.buffer, st.buffer.length) :=
        upsertBatch_fresh st.buffer st.ledger hnd hdisj
      simp only [tailFlush, okEnv_bulkFails, Bool.false_eq_true, if_false,
        hub, update_job_status, mkOut, okEnv_cancelFinal]
      refine ⟨trivial, by simp, by simp, by simp⟩
  | cons r rs ih =>
    intro st hcf hb hnd hdisj
    rw [loop]
    simp only [batch_size, max_consecutive_failures, flushBatch,
      okEnv_bulkFails, okEnv_cancelBetween, okEnv_cancelAfterCheck,
      applyCancelAt, update_job_status, Bool.false_eq_true, if_false,
      List.length_append, List.length_cons, List.length_nil, zero_add]
    rw [List.append_cons] at hnd hdisj
    by_cases hfl : 500 ≤ st.buffer.length + 1
    · rw [if_pos hfl]
      -- the batch `st.buffer ++ [r]` is flushed through a successful upsert
      have hnd2 := hnd
      rw [List.nodup_append] at hnd2
      obtain ⟨hndb, hndr, hdisj2⟩ := hnd2
      have hub : upsertBatch st.ledger (st.buffer ++ [r]) =
          (st.ledger ++ (st.buffer ++ [r]), (st.buffer ++ [r]).length) :=
        upsertBatch_fresh _ _ hndb
          (fun x hx => hdisj x (List.mem_append_left _ hx))
      rw [hub]
      simp only [List.length_append, List.length_cons, List.length_nil, zero_add]
      rw [if_neg (by simp)]
      rw [if_neg (by simp)]
      rw [if_neg (by simp)]
      rw [if_neg (by simp)]
      obtain ⟨h1, h2, h3, h4⟩ := ih
        { st with
          buffer := [],
          inserted := st.inserted + (st.buffer.length + 1),
          duplicate_skipped := st.duplicate_skipped + (st.buffer.length + 1 - (st.buffer.length + 1)),
          consecutive_failures := 0,
          flushes := st.flushes + 1,
          processed := st.processed + 1,
          ledger := st.ledger ++ (st.buffer ++ [r]),
          status := JobStatus.processing,
          trace := st.trace ++ [JobStatus.processing],
          upsertsAfterCancel :=
            st.upsertsAfterCancel + (if st.cancelSeen = true then 1 else 0) }
        rfl (by simp) (by simpa using hndr)
        (by
          intro x hx
          simp only [List.nil_append] at hx
          rw [List.mem_append]
          rintro (hxl | hxb)
          · exact hdisj x (List.mem_append_right _ hx) hxl
          · exact hdisj2 hxb hx)
      refine ⟨h1, ?_, ?_, ?_⟩
      · rw [h2]
        simp only [List.length_append, List.length_cons, List.length_nil, zero_add]
        omega
      · rw [h3]
        simp
      · rw [h4]
        simp [List.append_assoc]
    · rw [if_neg hfl]
      obtain ⟨h1, h2, h3, h4⟩ := ih
        { st with buffer := st.buffer ++ [r], processed := st.processed + 1 }
        hcf (by simp only [List.length_append, List.length_cons, List.length_nil]; omega)
        hnd hdisj
      refine ⟨h1, ?_, h3, ?_⟩
      · rw [h2]
        simp only [List.length_append, List.length_cons, List.length_nil]
        omega
      · rw [h4]
        simp [List.append_assoc]

theorem ok_loop_stale (rs : List Row) : ∀ st : St,
    st.consecutive_failures = 0 →
    st.buffer.length < 500 →
    (∀ x ∈ st.buffer ++ rs, x ∈ st.ledger) →
    (loop okEnv rs st).exit = ExitKind.completed ∧
    (loop okEnv rs st).inserted = st.inserted ∧
    (loop okEnv rs st).duplicate_skipped =
      st.duplicate_skipped + (st.buffer ++ rs).length ∧
    (loop okEnv rs st).ledger = st.ledger := by
  induction rs with
  | nil =>
    intro st hcf hb hsub
    simp only [loop]
    rw [List.append_nil] at hsub ⊢
    unfold finish
    by_cases hbe : st.buffer.isEmpty = true
    · rw [if_pos hbe]
      have hbuf : st.buffer = [] := by simpa using hbe
      simp [mkOut, update_job_status, okEnv_cancelFinal, hbuf]
    · rw [if_neg hbe]
      have hub : upsertBatch st.ledger st.buffer = (st.ledger, 0) :=
        upsertBatch_stale st.buffer st.ledger hsub
      simp only [tailFlush, okEnv_bulkFails, Bool.false_eq_true, if_false,
        hub, update_job_status, mkOut, okEnv_cancelFinal]
      refine ⟨trivial, by simp, by simp, by simp⟩
  | cons r rs ih =>
    intro st hcf hb hsub
    rw [loop]
    simp only [batch_size, max_consecutive_failures, flushBatch,
      okEnv_bulkFails, okEnv_cancelBetween, okEnv_cancelAfterCheck,
      applyCancelAt, update_job_status, Bool.false_eq_true, if_false,
      List.length_append, List.length_cons, List.length_nil, zero_add]
    rw [List.append_cons] at hsub
    by_cases hfl : 500 ≤ st.buffer.length + 1
    · rw [if_pos hfl]
      have hub : upsertBatch st.ledger (st.buffer ++ [r]) = (st.ledger, 0) :=
        upsertBatch_stale _ _ (fun x hx => hsub x (List.mem_append_left _ hx))
      rw [hub]
      rw [if_neg (by simp)]
      rw [if_neg (by simp)]
      rw [if_neg (by simp)]
      rw [if_neg (by simp)]
      obtain ⟨h1, h2, h3, h4⟩ := ih
        { st with
          buffer := [],
          inserted := st.inserted + 0,
          duplicate_skipped := st.duplicate_skipped + (st.buffer.length + 1 - 0),
          consecutive_failures := 0,
          flushes := st.flushes + 1,
          processed := st.processed + 1,
          ledger := st.ledger,
          status := JobStatus.processing,
          trace := st.trace ++ [JobStatus.processing],
          upsertsAfterCancel :=
            st.upsertsAfterCancel + (if st.cancelSeen = true then 1 else 0) }
        rfl (by simp)
        (by
          intro x hx
          simp only [List.nil_append] at hx
          exact hsub x (List.mem_append_right _ hx))
      refine ⟨h1, ?_, ?_, h4⟩
      · rw [h2]; simp
      · rw [h3]
        simp only [List.length_append, List.length_cons, List.length_nil]
        omega
    · rw [if_neg hfl]
      obtain ⟨h1, h2, h3, h4⟩ := ih
        { st with buffer := st.buffer ++ [r], processed := st.processed + 1 }
        hcf (by simp only [List.length_append, List.length_cons, List.length_nil]; omega)
        hsub
      refine ⟨h1, h2, ?_, h4⟩
      rw [h3]
      simp only [List.length_append, List.length_cons, List.length_nil]
      omega

/-- **C3.** Ingesting a file of `N` distinct item rows twice against an
initially empty ledger: the first run completes with `inserted = N`, the
second run completes with `inserted = 0` and `duplicatesSkipped = N`, and the
stored `transactions` table is unchanged by the second run — the
ignore-on-conflict upsert on the key
`(tenant_id, receipt_number, item_name, receipt_timestamp)` makes the ingest
idempotent. -/
theorem ingest_idempotent (rows : List Row) (h : rows.Nodup) :
    (process_csv okEnv [] rows).exit = ExitKind.completed ∧
    (process_csv okEnv [] rows).inserted = rows.length ∧
    (process_csv okEnv [] rows).duplicate_skipped = 0 ∧
    (process_csv okEnv [] rows).ledger = rows ∧
    (process_csv okEnv (process_csv okEnv [] rows).ledger rows).exit =
      ExitKind.completed ∧
    (process_csv okEnv (process_csv okEnv [] rows).ledger rows).inserted = 0 ∧
    (process_csv okEnv (process_csv okEnv [] rows).ledger rows).duplicate_skipped =
      rows.length ∧
    (process_csv okEnv (process_csv okEnv [] rows).ledger rows).ledger =
      (process_csv okEnv [] rows).ledger := by
  have hfresh := ok_loop_fresh rows
    { buffer := [], inserted := 0, duplicate_skipped := 0, errors := 0,
      consecutive_failures := 0, flushes := 0, processed := 0,
      ledger := [], status := JobStatus.processing,
      trace := [JobStatus.pending] ++ [JobStatus.processing], cancelSeen := false,
      upsertsAfterCancel := 0 }
    rfl (by simp) (by simpa using h) (by simp)
  obtain ⟨f1, f2, f3, f4⟩ := hfresh
  simp only [List.nil_append, List.length_nil] at f1 f2 f3 f4
  unfold process_csv
  simp only [update_job_status]
  rw [f4]
  have hstale := ok_loop_stale rows
    { buffer := [], inserted := 0, duplicate_skipped := 0, errors := 0,
      consecutive_failures := 0, flushes := 0, processed := 0,
      ledger := rows, status := JobStatus.processing,
      trace := [JobStatus.pending] ++ [JobStatus.processing], cancelSeen := false,
      upsertsAfterCancel := 0 }
    rfl (by simp) (by simp)
  obtain ⟨s1, s2, s3, s4⟩ := hstale
  simp only [List.nil_append, List.length_nil] at s1 s2 s3 s4
  exact ⟨f1, by rw [f2]; simp, by rw [f3], rfl, s1, by rw [s2], by rw [s3]; simp,
    by rw [s4]⟩

/-- Witness for `ingest_idempotent` on the concrete 3-row file `[0, 1, 2]`. -/
theorem ingest_idempotent_witness :
    ([0, 1, 2] : List Row).Nodup ∧
    ((process_csv okEnv [] [0, 1, 2]).exit = ExitKind.completed ∧
      (process_csv okEnv [] [0, 1, 2]).inserted = ([0, 1, 2] : List Row).length ∧
      (process_csv okEnv [] [0, 1, 2]).duplicate_skipped = 0 ∧
      (process_csv okEnv [] [0, 1, 2]).ledger = [0, 1, 2] ∧
      (process_csv okEnv (process_csv okEnv [] [0, 1, 2]).ledger [0, 1, 2]).exit =
        ExitKind.completed ∧
      (process_csv okEnv (process_csv okEnv [] [0, 1, 2]).ledger [0, 1, 2]).inserted = 0 ∧
      (process_csv okEnv (process_csv okEnv [] [0, 1, 2]).ledger [0, 1, 2]).duplicate_skipped =
        ([0, 1, 2] : List Row).length ∧
      (process_csv okEnv (process_csv okEnv [] [0, 1, 2]).ledger [0, 1, 2]).ledger =
        (process_csv okEnv [] [0, 1, 2]).ledger) :=
  ⟨by decide, ingest_idempotent [0, 1, 2] (by decide)⟩

theorem finish_exit (env : Env) (st : St) :
    (finish env st).exit = ExitKind.completed := rfl

theorem down_pair (n : ℕ) :
    ((if 0 < n then [Down.anomalyScan] else []) ++
        (if 0 < n then [Down.summaryRefresh] else [])) =
      if 0 < n then [Down.anomalyScan, Down.summaryRefresh] else [] := by
  by_cases h : 0 < n <;> simp [h]

theorem finish_downstream (env : Env) (st : St) :
    (finish env st).downstream =
      if 0 < (finish env st).inserted
      then [Down.anomalyScan, Down.summaryRefresh] else [] := by
  simp only [finish, mkOut, down_pair]

theorem loop_downstream (env : Env) (rs : List Row) : ∀ st : St,
    (loop env rs st).downstream =
      if (loop env rs st).exit = ExitKind.completed ∧ 0 < (loop env rs st).inserted
      then [Down.anomalyScan, Down.summaryRefresh] else [] := by
  induction rs with
  | nil =>
    intro st
    simp only [loop]
    rw [finish_downstream]
    simp [finish_exit]
  | cons r rs ih =>
    intro st
    rw [loop]
    dsimp only
    split
    · split
      · simp [mkOut]
      · split
        · simp [mkOut]
        · exact ih _
    · exact ih _

/-- **C1 (amended).** After a run of the upload pipeline
(`process_csv` followed by the background task's unconditional
`regenerate_menu_items`): if `process_csv` completed normally with
`inserted > 0`, the downstream invocations are, in order, the anomaly scan,
the summary-table refresh, and the menu-item rollup rebuild; in every other
case — including `inserted == 0`, an aborted run and a cancelled run — the
anomaly scan and summary refresh are skipped but the menu-item rollup is
still invoked. -/
theorem pipeline_downstream (env : Env) (ledger rows : List Row) :
    (process_import_task env ledger rows).downstream =
      if (process_import_task env ledger rows).exit = ExitKind.completed ∧
          0 < (process_import_task env ledger rows).inserted
      then [Down.anomalyScan, Down.summaryRefresh, Down.menuRollup]
      else [Down.menuRollup] := by
  unfold process_import_task process_csv
  dsimp only
  rw [loop_downstream]
  split <;> simp_all

/-- **C1 counterexample.** The claim fails twice on the code: (1) a run with
`inserted == 0` still invokes the menu-item rollup (the background task calls
`regenerate_menu_items` unconditionally after `process_csv`); (2) for a run
with `inserted > 0` the invocation order is anomaly scan, summary refresh,
menu rollup — not menu rollup first as claimed. -/
theorem pipeline_trigger_cex :
    ((process_import_task okEnv [] []).inserted = 0 ∧
      (process_import_task okEnv [] []).downstream ≠ []) ∧
    ((process_import_task okEnv [] [7]).exit = ExitKind.completed ∧
      0 < (process_import_task okEnv [] [7]).inserted ∧
      (process_import_task okEnv [] [7]).downstream =
        [Down.anomalyScan, Down.summaryRefresh, Down.menuRollup] ∧
      (process_import_task okEnv [] [7]).downstream ≠
        [Down.menuRollup, Down.anomalyScan, Down.summaryRefresh]) := by
  decide

/-- **C4 (code bug).** `update_job_status` has no transition guard: when an
external cancel request lands between the last batch and the final status
write, the run's unconditional `completed` write moves the job out of the
terminal `cancelled` state.  The resulting status-write sequence
pending, processing, cancelled, completed is illegal under the claimed
transition relation. -/
theorem job_status_terminal_cex :
    (process_csv cancelFinalEnv [] [0]).trace =
      [JobStatus.pending, JobStatus.processing, JobStatus.cancelled,
        JobStatus.completed] ∧
    legalSeq (process_csv cancelFinalEnv [] [0]).trace = false := by
  decide

/-- **C9 (code bug).** On a 1100-row file (batch size 500), an external
cancellation landing while the second batch is being collected is overwritten
by the loop's own progress update (`status := processing`) *before* the
status re-read, so the run never observes it: two further bulk upserts are
performed after the cancellation (batch 2 and the 100-row tail), the run
returns a normal — not cancelled — result, and the job ends `completed`,
having left the terminal `cancelled` state. -/
theorem cancellation_unobserved_cex :
    (process_csv cancelMidRunEnv [] (List.replicate 1100 0)).upsertsAfterCancel = 2 ∧
    (process_csv cancelMidRunEnv [] (List.replicate 1100 0)).exit = ExitKind.completed ∧
    (process_csv cancelMidRunEnv [] (List.replicate 1100 0)).trace =
      [JobStatus.pending, JobStatus.processing, JobStatus.processing,
        JobStatus.cancelled, JobStatus.processing, JobStatus.completed] ∧
    legalSeq (process_csv cancelMidRunEnv [] (List.replicate 1100 0)).trace = false := by
  set_option maxRecDepth 100000 in decide

end Ingest
